import Mathlib

/-! Verification of the RFP Studio workflow orchestration core.

Shallow embedding, in Lean 4, of the parts of the `rfp_studio` Python
package that the specification's claims are about:

* `rfp_studio/workflow/states.py` — the 13-stage workflow state machine
  (`RFPStatus`, `ALLOWED_TRANSITIONS`, `can_transition`,
  `get_next_valid_states`);
* `rfp_studio/orchestrator/langgraph_flow.py` — `_merge_agent_result` and
  `apply_workflow_transition`;
* `rfp_studio/agents/sales.py` — the new-record branch of `SalesAgent.run`
  and `_build_new_rfp_model`;
* `rfp_studio/agents/bdm.py` — `BDMReviewAgent.run`;
* `rfp_studio/agents/sme_router.py` — `SMERoutingAgent.run`;
* `rfp_studio/agents/quality.py` — the aggregation and gating logic of
  `QualityAgent.run` (the per-item scoring stub is a parameter);
* the ranking contract of the similarity router (spec §4.3), whose
  implementation is the external Atlas `$vectorSearch` stage.

Python `dict`s carrying optional string fields are embedded as structures
of `Option String`; Python truthiness tests (`if not x`) on such fields
are embedded by `truthyStr`.  MongoDB collections are embedded as lists of
documents; `find_one` / `update_one` act on the first matching document.
Numeric scores are embedded as rationals.
-/

namespace RfpStudio

/-- Python truthiness of an optional string: `None` and `""` are falsy. -/
def truthyStr : Option String → Bool
  | none => false
  | some s => !(s == "")

/-- Python `a or b` for optional strings: `b` when `a` is falsy. -/
def falsyOr (a : Option String) (b : String) : String :=
  if truthyStr a then a.getD b else b

/-- `bson.ObjectId(s)` accepts exactly a 24-character hexadecimal string;
this is the validity test behind every `try: ObjectId(x) except` block. -/
def isValidObjectId (s : String) : Bool :=
  s.length == 24 && s.toList.all (fun c =>
    c.isDigit || ('a' ≤ c && c ≤ 'f') || ('A' ≤ c && c ≤ 'F'))

/-! Part: Workflow states (`rfp_studio/workflow/states.py`) -/

/-- The 13 members of the `RFPStatus` enum. -/
inductive RFPStatus where
  | INITIATED
  | LINKED_TO_RFP
  | SALES_ASSEMBLY
  | BDM_REVIEW
  | RFP_BREAKDOWN
  | SME_QA
  | CONTENT_DRAFT
  | LEGAL_REVIEW
  | QUALITY_REVIEW
  | FINAL_RFP
  | APPROVED_BY_VP
  | SUBMISSION_READY
  | SUBMITTED
deriving DecidableEq, BEq, Repr, Fintype

namespace RFPStatus

/-- The string value of each enum member (`RFPStatus.X.value`). -/
def value : RFPStatus → String
  | INITIATED => "INITIATED"
  | LINKED_TO_RFP => "LINKED_TO_RFP"
  | SALES_ASSEMBLY => "SALES_ASSEMBLY"
  | BDM_REVIEW => "BDM_REVIEW"
  | RFP_BREAKDOWN => "RFP_BREAKDOWN"
  | SME_QA => "SME_QA"
  | CONTENT_DRAFT => "CONTENT_DRAFT"
  | LEGAL_REVIEW => "LEGAL_REVIEW"
  | QUALITY_REVIEW => "QUALITY_REVIEW"
  | FINAL_RFP => "FINAL_RFP"
  | APPROVED_BY_VP => "APPROVED_BY_VP"
  | SUBMISSION_READY => "SUBMISSION_READY"
  | SUBMITTED => "SUBMITTED"

/-- The enum constructor `RFPStatus(s)`: `some` member with that value,
`none` when the Python call would raise `ValueError`. -/
def ofString? (s : String) : Option RFPStatus :=
  ([INITIATED, LINKED_TO_RFP, SALES_ASSEMBLY, BDM_REVIEW, RFP_BREAKDOWN,
    SME_QA, CONTENT_DRAFT, LEGAL_REVIEW, QUALITY_REVIEW, FINAL_RFP,
    APPROVED_BY_VP, SUBMISSION_READY, SUBMITTED]).find?
    (fun x => x.value == s)

end RFPStatus

/-- `ALLOWED_TRANSITIONS`: the adjacency map of the workflow. -/
def ALLOWED_TRANSITIONS : RFPStatus → List RFPStatus
  | .INITIATED => [.LINKED_TO_RFP]
  | .LINKED_TO_RFP => [.SALES_ASSEMBLY]
  | .SALES_ASSEMBLY => [.BDM_REVIEW]
  | .BDM_REVIEW => [.RFP_BREAKDOWN]
  | .RFP_BREAKDOWN => [.SME_QA]
  | .SME_QA => [.CONTENT_DRAFT]
  | .CONTENT_DRAFT => [.LEGAL_REVIEW]
  | .LEGAL_REVIEW => [.QUALITY_REVIEW]
  | .QUALITY_REVIEW => [.FINAL_RFP]
  | .FINAL_RFP => [.APPROVED_BY_VP]
  | .APPROVED_BY_VP => [.SUBMISSION_READY]
  | .SUBMISSION_READY => [.SUBMITTED]
  | .SUBMITTED => []

/-- `can_transition(from_status, to_status)`:
`to_status in ALLOWED_TRANSITIONS.get(from_status, [])`. -/
def can_transition (from_status to_status : RFPStatus) : Bool :=
  (ALLOWED_TRANSITIONS from_status).contains to_status

/-- `get_next_valid_states(from_status)`. -/
def get_next_valid_states (from_status : RFPStatus) : List RFPStatus :=
  ALLOWED_TRANSITIONS from_status

/-- The successor function of the fixed chain
INITIATED → … → SUBMITTED, written out from the spec's wording (§3,
"13 totally ordered stages … simple chain"), to be compared with the
table the code configures. -/
def chainNext : RFPStatus → Option RFPStatus
  | .INITIATED => some .LINKED_TO_RFP
  | .LINKED_TO_RFP => some .SALES_ASSEMBLY
  | .SALES_ASSEMBLY => some .BDM_REVIEW
  | .BDM_REVIEW => some .RFP_BREAKDOWN
  | .RFP_BREAKDOWN => some .SME_QA
  | .SME_QA => some .CONTENT_DRAFT
  | .CONTENT_DRAFT => some .LEGAL_REVIEW
  | .LEGAL_REVIEW => some .QUALITY_REVIEW
  | .QUALITY_REVIEW => some .FINAL_RFP
  | .FINAL_RFP => some .APPROVED_BY_VP
  | .APPROVED_BY_VP => some .SUBMISSION_READY
  | .SUBMISSION_READY => some .SUBMITTED
  | .SUBMITTED => none

/-! Part: Orchestrator transition application
(`rfp_studio/orchestrator/langgraph_flow.py`) -/

/-- An `rfps` collection document, as far as `apply_workflow_transition`
reads and writes it: its `_id`, its `status` field, and the remaining
fields (untouched by the `$set` on `status`). -/
structure RfpDoc where
  id : String
  status : String
  other : List (String × String) := []
deriving DecidableEq, Repr

/-- `db.rfps.find_one({"_id": rfp_id})`: first document with that id. -/
def find_one (db : List RfpDoc) (i : String) : Option RfpDoc :=
  db.find? (fun r => r.id == i)

/-- `db.rfps.update_one({"_id": i}, {"$set": {"status": new}})`:
updates the first matching document only. -/
def update_status : List RfpDoc → String → String → List RfpDoc
  | [], _, _ => []
  | r :: rest, i, new =>
    if r.id == i then { r with status := new } :: rest
    else r :: update_status rest i new

/-- `apply_workflow_transition(rfp_id, next_status)` acting on the `rfps`
collection; it returns the (possibly updated) collection and never
surfaces an error. -/
def apply_workflow_transition (db : List RfpDoc)
    (rfp_id next_status : Option String) : List RfpDoc :=
  if truthyStr rfp_id && truthyStr next_status then
    match RFPStatus.ofString? (next_status.getD "") with
    | none => db
    | some next_s =>
      match find_one db (rfp_id.getD "") with
      | none => db
      | some rfp =>
        match RFPStatus.ofString? rfp.status with
        | none => db
        | some current_s =>
          if can_transition current_s next_s then
            update_status db (rfp_id.getD "") next_s.value
          else db
  else db

/-! Part: Orchestrator state merge (`_merge_agent_result`) -/

/-- `BaseAgentResult` as `_merge_agent_result` consumes it; the
`changes` / `events` dicts are kept abstract in `Δ`. -/
structure AgentResult (Δ : Type) where
  success : Bool := true
  message : Option String := none
  changes : Δ
  events : Δ
  next_state : Option String := none

/-- The orchestrator's accumulated state dict.  The keys
`agent_changes` / `agent_events` / `next_state` / `last_message` /
`last_success` may be absent before the first merge (hence `Option`);
`rest` stands for every other key (`rfp_id`, `payload`, `context`, …),
which `_merge_agent_result` copies unchanged. -/
structure PipeState (Δ ρ : Type) where
  agent_changes : Option (List Δ) := none
  agent_events : Option (List Δ) := none
  next_state : Option String := none
  last_message : Option String := none
  last_success : Option Bool := none
  rest : ρ

/-- `_merge_agent_result(prev_state, result)`: `setdefault`-then-`append`
on the two logs, truthiness-guarded overwrite of `next_state`, and
unconditional recording of `last_message` / `last_success`. -/
def _merge_agent_result {Δ ρ : Type} (prev_state : PipeState Δ ρ)
    (result : AgentResult Δ) : PipeState Δ ρ :=
  { prev_state with
    agent_changes := some (prev_state.agent_changes.getD [] ++ [result.changes])
    agent_events := some (prev_state.agent_events.getD [] ++ [result.events])
    next_state :=
      if truthyStr result.next_state then result.next_state
      else prev_state.next_state
    last_message := result.message
    last_success := some result.success }

/-! Part: Sales agent (`rfp_studio/agents/sales.py`), new-record branch -/

/-- The payload fields `SalesAgent._build_new_rfp_model` reads. -/
structure SalesPayload where
  title : Option String := none
  client_name : Option String := none
  client_contact : Option String := none
  received_date : Option String := none
  due_date : Option String := none
  industry : Option String := none
  rfp_size : Option String := none
  tags : Option (List String) := none

/-- `ClientInfo` of the `RFP` pydantic model. -/
structure ClientInfo where
  name : String
  contact : Option String := none
deriving DecidableEq, Repr

/-- The `RFP` pydantic model, restricted to the fields
`_build_new_rfp_model` sets. -/
structure RFPModel where
  title : String
  client : ClientInfo
  status : String
  received_date : Option String := none
  due_date : Option String := none
  industry : Option String := none
  rfp_size : Option String := none
  tags : List String := []
deriving DecidableEq, Repr

/-- `SalesAgent._build_new_rfp_model(payload)`: `.error` models the
raised `ValueError`, mirroring the two `if not …` guards. -/
def _build_new_rfp_model (payload : SalesPayload) : Except String RFPModel :=
  if !truthyStr payload.title then
    .error "Missing 'title' in SalesAgent payload"
  else if !truthyStr payload.client_name then
    .error "Missing 'client_name' in SalesAgent payload"
  else
    .ok
      { title := payload.title.getD ""
        client := { name := payload.client_name.getD ""
                    contact := payload.client_contact }
        status := "INITIATED"
        received_date := payload.received_date
        due_date := payload.due_date
        industry := payload.industry
        rfp_size := payload.rfp_size
        tags := payload.tags.getD [] }

/-- The slice of `BaseAgentResult` the Sales claims read. -/
structure SalesResult where
  success : Bool
  message : String
  next_state : Option String := none
deriving DecidableEq, Repr

/-- The `rfp_id is None` branch of `SalesAgent.run`: build the model,
insert it into the `rfps` collection on success, and suggest
INITIATED → LINKED_TO_RFP when the table allows it; on a build failure
return `success=False` without touching the collection. -/
def SalesAgent_run_new (db : List RFPModel) (payload : SalesPayload) :
    SalesResult × List RFPModel :=
  match _build_new_rfp_model payload with
  | .error e =>
    ({ success := false
       message := "SalesAgent failed to construct RFP: " ++ e }, db)
  | .ok rfp_model =>
    let db := db ++ [rfp_model]
    let next_state :=
      if can_transition RFPStatus.INITIATED RFPStatus.LINKED_TO_RFP then
        some RFPStatus.LINKED_TO_RFP.value
      else none
    ({ success := true
       message := "RFP created by SalesAgent."
       next_state := next_state }, db)

/-! Part: BDM review agent (`rfp_studio/agents/bdm.py`) -/

/-- The `TaskType` enum (`rfp_studio/models/task.py`). -/
inductive TaskType where
  | SALES_INTAKE
  | BDM_REVIEW
  | RFP_BREAKDOWN
  | SME_QA
  | SME_ANSWER
  | CONTENT_DRAFT
  | LEGAL_REVIEW
  | QUALITY_REVIEW
  | VP_APPROVAL
  | SUBMISSION
  | OTHER
deriving DecidableEq, BEq, Repr

namespace TaskType

/-- The string value of each `TaskType` member. -/
def value : TaskType → String
  | SALES_INTAKE => "SALES_INTAKE"
  | BDM_REVIEW => "BDM_REVIEW"
  | RFP_BREAKDOWN => "RFP_BREAKDOWN"
  | SME_QA => "SME_QA"
  | SME_ANSWER => "SME_ANSWER"
  | CONTENT_DRAFT => "CONTENT_DRAFT"
  | LEGAL_REVIEW => "LEGAL_REVIEW"
  | QUALITY_REVIEW => "QUALITY_REVIEW"
  | VP_APPROVAL => "VP_APPROVAL"
  | SUBMISSION => "SUBMISSION"
  | OTHER => "OTHER"

/-- The enum constructor `TaskType(s)`: `none` when it would raise. -/
def ofString? (s : String) : Option TaskType :=
  ([SALES_INTAKE, BDM_REVIEW, RFP_BREAKDOWN, SME_QA, SME_ANSWER,
    CONTENT_DRAFT, LEGAL_REVIEW, QUALITY_REVIEW, VP_APPROVAL,
    SUBMISSION, OTHER]).find? (fun x => x.value == s)

end TaskType

/-- One element of the `sections` list in the BDM payload. -/
structure Section where
  title : Option String := none
  description : Option String := none
  suggested_team : Option String := none
  task_type : Option String := none
  index : Option String := none

/-- A `tasks` collection document as `BDMReviewAgent.run` inserts it.
`id` is the Mongo-generated `_id` (embedded as a counter value). -/
structure TaskDoc where
  id : Nat
  rfp_id : String
  type : TaskType
  status : String
  title : String
  description : Option String := none
  assigned_to_team : Option String := none
  metadata_source : String
  metadata_section_index : Option String := none
deriving DecidableEq, Repr

/-- An `rfps` collection document as `BDMReviewAgent.run` reads and
updates it: its id and its `tasks` reference list
(`{"task_id": tid, "source": "BDMReviewAgent"}` entries). -/
structure BdmRfpDoc where
  id : String
  tasks : List (Nat × String) := []
deriving DecidableEq, Repr

/-- The database slice the BDM agent touches: the `rfps` and `tasks`
collections, plus the id counter behind Mongo's generated `_id`s. -/
structure BdmDB where
  rfps : List BdmRfpDoc := []
  tasks : List TaskDoc := []
  nextTaskId : Nat := 0
deriving DecidableEq, Repr

/-- The body of the `for section in sections` loop: the task document
built for one section.  The `or` fall-backs mirror
`section.get("task_type") or "RFP_BREAKDOWN"` / the `TaskType(...)
except ValueError` default / `section.get("title") or
"Untitled section"`. -/
def mkBdmTask (rfp_id : String) (tid : Nat) (sec : Section) : TaskDoc :=
  let task_type_str := falsyOr sec.task_type "RFP_BREAKDOWN"
  let task_type := (TaskType.ofString? task_type_str).getD TaskType.RFP_BREAKDOWN
  { id := tid
    rfp_id := rfp_id
    type := task_type
    status := "PENDING"
    title := falsyOr sec.title "Untitled section"
    description := sec.description
    assigned_to_team := sec.suggested_team
    metadata_source := "BDMReviewAgent"
    metadata_section_index := sec.index }

/-- The task documents inserted by the loop, in order, with the
generated ids counting up from `tid`. -/
def createTasks (rfp_id : String) (tid : Nat) : List Section → List TaskDoc
  | [] => []
  | s :: rest => mkBdmTask rfp_id tid s :: createTasks rfp_id (tid + 1) rest

/-- `db.rfps.update_one({"_id": i}, {"$set": {"tasks": ts, …}})`:
updates the first matching document only. -/
def update_rfp_tasks : List BdmRfpDoc → String → List (Nat × String) →
    List BdmRfpDoc
  | [], _, _ => []
  | r :: rest, i, ts =>
    if r.id == i then { r with tasks := ts } :: rest
    else r :: update_rfp_tasks rest i ts

/-- The slice of `BaseAgentResult` the BDM claims read. -/
structure BdmResult where
  success : Bool
  message : String
  created_task_ids : List Nat := []
  num_sections : Nat := 0
  next_state : Option String := none
deriving DecidableEq, Repr

/-- `BDMReviewAgent.run(agent_input)` over the payload's `sections`
list: validate `rfp_id`, look the RFP up, insert one task per section,
attach the task references to the RFP, and suggest
BDM_REVIEW → RFP_BREAKDOWN when the table allows it. -/
def BDMReviewAgent_run (db : BdmDB) (rfp_id : Option String)
    (sections : List Section) : BdmResult × BdmDB :=
  if !truthyStr rfp_id then
    ({ success := false, message := "BDMReviewAgent requires rfp_id." }, db)
  else
    let rid := rfp_id.getD ""
    if !isValidObjectId rid then
      ({ success := false
         message := "Invalid rfp_id for BDMReviewAgent: " ++ rid }, db)
    else
      match db.rfps.find? (fun r => r.id == rid) with
      | none =>
        ({ success := false
           message := "RFP not found for BDMReviewAgent: " ++ rid }, db)
      | some rfp_doc =>
        if sections.isEmpty then
          ({ success := false
             message := "BDMReviewAgent payload missing 'sections'." }, db)
        else
          let new_tasks := createTasks rid db.nextTaskId sections
          let created_task_ids := new_tasks.map (·.id)
          let updated_tasks :=
            rfp_doc.tasks ++ created_task_ids.map (fun tid => (tid, "BDMReviewAgent"))
          let rfps := update_rfp_tasks db.rfps rid updated_tasks
          let next_state :=
            if can_transition RFPStatus.BDM_REVIEW RFPStatus.RFP_BREAKDOWN then
              some RFPStatus.RFP_BREAKDOWN.value
            else none
          ({ success := true
             message := "BDMReviewAgent created tasks."
             created_task_ids := created_task_ids
             num_sections := sections.length
             next_state := next_state },
           { rfps := rfps
             tasks := db.tasks ++ new_tasks
             nextTaskId := db.nextTaskId + sections.length })

/-! Part: SME routing agent (`rfp_studio/agents/sme_router.py`) -/

/-- One element of the payload's `questions` list. -/
structure Question where
  task_id : Option String := none
  text : Option String := none

/-- A `knowledge_base` document as the router's `$project` stage returns
it: `_id`, the three team-key candidates it falls through, and the
vector-search score. -/
structure KBDoc where
  id : String
  team_key : Option String := none
  team : Option String := none
  owner_team : Option String := none
  score : Option ℚ := none

/-- A `tasks` collection document as the router updates it. -/
structure SmeTask where
  id : String
  assigned_to_team : Option String := none
  status : String := "PENDING"
  sme_routing_kb_id : Option String := none
  sme_routing_score : Option ℚ := none

/-- The router's external collaborators: `_embed_text` (OpenAI; `.error`
models a raised exception) and the Atlas `$vectorSearch` aggregate over
`knowledge_base` (a function of the embedding; the embedding itself is an
opaque handle). -/
structure SmeEnv where
  embed : String → Except String Nat
  search : Nat → List KBDoc

/-- One entry of the `routing_details` list. -/
structure RoutingDetail where
  task_id : String
  status : String
  error : Option String := none
  assigned_to_team : Option String := none
  kb_match_id : Option String := none
  score : Option ℚ := none

/-- `tasks.update_one({"_id": oid}, {"$set": …})` for the routed team:
updates the first matching document only. -/
def sme_update_task : List SmeTask → String → String → String → Option ℚ →
    List SmeTask
  | [], _, _, _, _ => []
  | t :: rest, i, team, kb, sc =>
    if t.id == i then
      { t with assigned_to_team := some team
               status := "PENDING"
               sme_routing_kb_id := some kb
               sme_routing_score := sc } :: rest
    else t :: sme_update_task rest i team kb sc

/-- The `$set` data of the task update a routed item performs. -/
structure SmeUpdate where
  tid : String
  team : String
  kb : String
  score : Option ℚ

/-- The body of the `for q in questions` loop: `none` when the item is
silently skipped (falsy `task_id` or blank `text`), otherwise the
routing-detail entry recorded for it, together with the task update to
apply (and the id appended to `updated_tasks`) when the item routes. -/
def smeProcessItem (env : SmeEnv) (tasks : List SmeTask) (q : Question) :
    Option (RoutingDetail × Option SmeUpdate) :=
  let task_id := q.task_id
  let text := (q.text.getD "").trim
  if !truthyStr task_id || text == "" then
    none
  else
    let tid := task_id.getD ""
    match env.embed text with
    | .error e =>
      some ({ task_id := tid, status := "embedding_failed", error := some e },
        none)
    | .ok embedding =>
      match env.search embedding with
      | [] => some ({ task_id := tid, status := "no_match" }, none)
      | top_match :: _ =>
        let team_key :=
          if truthyStr top_match.team_key then top_match.team_key
          else if truthyStr top_match.team then top_match.team
          else top_match.owner_team
        if !truthyStr team_key then
          some ({ task_id := tid, status := "no_team_in_match" }, none)
        else if !isValidObjectId tid then
          some ({ task_id := tid, status := "invalid_task_id" }, none)
        else if tasks.any (fun t => t.id == tid) then
          some ({ task_id := tid
                  status := "routed"
                  assigned_to_team := team_key
                  kb_match_id := some top_match.id
                  score := top_match.score },
            some { tid := tid, team := team_key.getD "",
                   kb := top_match.id, score := top_match.score })
        else
          some ({ task_id := tid, status := "task_not_found" }, none)

/-- The task-collection update the loop performs for one question (the
identity when the item does not route). -/
def smeApplyItem (env : SmeEnv) (tasks : List SmeTask) (q : Question) :
    List SmeTask :=
  match smeProcessItem env tasks q with
  | some (_, some u) => sme_update_task tasks u.tid u.team u.kb u.score
  | _ => tasks

/-- The slice of `BaseAgentResult` the routing claims read. -/
structure SmeResult where
  success : Bool
  message : String
  updated_task_ids : List String := []
  num_questions : Nat := 0
  routing_details : List RoutingDetail := []
  next_state : Option String := none

/-- The `for q in questions` loop, threading the `tasks` collection and
accumulating `updated_tasks` and `routing_details` in order. -/
def smeLoop (env : SmeEnv) : List SmeTask → List Question →
    List String × List RoutingDetail × List SmeTask
  | tasks, [] => ([], [], tasks)
  | tasks, q :: qs =>
    let rest := smeLoop env (smeApplyItem env tasks q) qs
    match smeProcessItem env tasks q with
    | none => rest
    | some (d, some u) => (u.tid :: rest.1, d :: rest.2.1, rest.2.2)
    | some (d, none) => (rest.1, d :: rest.2.1, rest.2.2)

/-- `SMERoutingAgent.run(agent_input)` over the payload's `questions`
list.  The final result reports `success=True` unconditionally once the
list is non-empty. -/
def SMERoutingAgent_run (env : SmeEnv) (tasks : List SmeTask)
    (questions : List Question) : SmeResult × List SmeTask :=
  if questions.isEmpty then
    ({ success := false
       message := "SMERoutingAgent payload missing 'questions'." }, tasks)
  else
    let r := smeLoop env tasks questions
    ({ success := true
       message := "SMERoutingAgent processed questions."
       updated_task_ids := r.1
       num_questions := questions.length
       routing_details := r.2.1
       next_state := none }, r.2.2)

/-! Part: Quality agent (`rfp_studio/agents/quality.py`) -/

/-- One element of the payload's `tasks` list.  The content /
requirements / criteria fields are opaque to the aggregation logic and
are kept abstract in `info`; `review` below consumes them. -/
structure QTask where
  task_id : Option String := none
  info : List (String × String) := []

/-- A `tasks` collection document as the quality agent updates it. -/
structure QTaskDoc where
  id : String
  status : String := "PENDING"
  quality_score : Option ℚ := none

/-- One entry of the reported `quality_results` list. -/
structure QualityResultEntry where
  task_id : String
  quality_score : ℚ
  status : String

/-- The slice of `BaseAgentResult` the quality claims read.
`avg_quality_score` is the aggregate reported both in `changes`
(`quality_score`) and in the event payload (`avg_quality_score`), and is
the value the 0.85 gate tests. -/
structure QualityResult where
  success : Bool
  reviewed_task_ids : List String := []
  quality_results : List QualityResultEntry := []
  avg_quality_score : ℚ := 0
  next_state : Option String := none

/-- `tasks.update_one({"_id": oid}, {"$set": {"status": COMPLETED, …}})`:
updates the first matching document only. -/
def quality_update_task : List QTaskDoc → String → ℚ → List QTaskDoc
  | [], _, _ => []
  | t :: rest, i, sc =>
    if t.id == i then
      { t with status := "COMPLETED", quality_score := some sc } :: rest
    else t :: quality_update_task rest i sc

/-- The `for task_info in tasks_to_review` loop.  `review` is
`_perform_quality_review(task_info)["quality_score"]`, the per-item
deterministic scoring stub (a parameter here: the claims quantify over
per-item scores, and the stub's string heuristics use machine floats).
Returns the accumulated `overall_quality_score`, `reviewed_task_ids`,
`quality_results` and the updated `tasks` collection. -/
def qualityLoop (review : QTask → ℚ) : List QTaskDoc → List QTask →
    ℚ × List String × List QualityResultEntry × List QTaskDoc
  | db, [] => (0, [], [], db)
  | db, task_info :: rest =>
    if !truthyStr task_info.task_id then qualityLoop review db rest
    else
      let tid := task_info.task_id.getD ""
      if !isValidObjectId tid then qualityLoop review db rest
      else
        let score := review task_info
        let matched := db.any (fun t => t.id == tid)
        let r := qualityLoop review (quality_update_task db tid score) rest
        if matched then
          (score + r.1, tid :: r.2.1,
            { task_id := tid, quality_score := score,
              status := "reviewed" } :: r.2.2.1, r.2.2.2)
        else
          (score + r.1, r.2.1, r.2.2.1, r.2.2.2)

/-- `QualityAgent.run(agent_input)` over the payload's `tasks` list:
run the loop, divide the accumulated score by the **total** payload
length, and suggest QUALITY_REVIEW → FINAL_RFP only when the average
clears the fixed 0.85 threshold and the table allows the move. -/
def QualityAgent_run (review : QTask → ℚ) (db : List QTaskDoc)
    (tasks_to_review : List QTask) : QualityResult × List QTaskDoc :=
  if tasks_to_review.isEmpty then
    ({ success := false }, db)
  else
    let r := qualityLoop review db tasks_to_review
    let avg_quality_score := r.1 / tasks_to_review.length
    let next_state :=
      if avg_quality_score ≥ 85 / 100 then
        if can_transition RFPStatus.QUALITY_REVIEW RFPStatus.FINAL_RFP then
          some RFPStatus.FINAL_RFP.value
        else none
      else none
    ({ success := true
       reviewed_task_ids := r.2.1
       quality_results := r.2.2.1
       avg_quality_score := avg_quality_score
       next_state := next_state }, r.2.2.2)

/-! Part: SimilarityRouter ranking (spec §4.3)

The repository performs its similarity ranking in the external MongoDB
Atlas `$vectorSearch` aggregation stage, invoked by `vector_search`
(`rfp_studio/vector/atlas_query.py`) and by `SMERoutingAgent.run`; the
ranking engine itself is not part of the repository's source.  The
router's ranking contract is therefore modelled from the spec. -/

/-- The ranking order the spec demands on indexed corpus entries:
strictly larger similarity score first, ties broken by smaller corpus
insertion index. -/
def rankRel {α : Type} (sim : α → ℚ) (a b : Nat × α) : Prop :=
  sim b.2 < sim a.2 ∨ (sim a.2 = sim b.2 ∧ a.1 < b.1)

/-- Modelled from the spec: §4.3 — insert one indexed entry into a
descending-ranked list, passing over strictly better-scoring entries so
that earlier-indexed entries keep their place on score ties. -/
def rankInsert {α : Type} (sim : α → ℚ) (x : Nat × α) :
    List (Nat × α) → List (Nat × α)
  | [] => [x]
  | y :: ys =>
    if sim x.2 < sim y.2 then y :: rankInsert sim x ys else x :: y :: ys

/-- Modelled from the spec: §4.3 — stable descending sort of the indexed
corpus by similarity score. -/
def rankSort {α : Type} (sim : α → ℚ) : List (Nat × α) → List (Nat × α)
  | [] => []
  | x :: xs => rankInsert sim x (rankSort sim xs)

/-- Modelled from the spec: §4.3 `route(queryVector, k, corpus)` — the
similarity ranking the external Atlas `$vectorSearch` stage performs for
the repository: score every corpus entry (`sim` is the similarity of the
fixed query to an entry), rank descending with insertion-order ties, and
return at most `k` candidates. -/
def route {α : Type} (sim : α → ℚ) (k : Nat) (corpus : List α) :
    List (Nat × α) :=
  (rankSort sim corpus.enum).take k

/-! Part: Helper lemmas -/

/-- Round-trip: the enum constructor recovers a member from its value. -/
theorem RFPStatus.ofString_value (x : RFPStatus) :
    RFPStatus.ofString? x.value = some x := by
  cases x <;> rfl

/-- No enum member has the empty string as its value. -/
theorem RFPStatus.value_ne_empty (x : RFPStatus) : x.value ≠ "" := by
  cases x <;> decide

/-- The transition table has no self-loop. -/
theorem can_transition_self (x : RFPStatus) : can_transition x x = false := by
  cases x <;> rfl

/-- `find_one` after `update_status` at the same id sees exactly the old
document with its `status` replaced. -/
theorem find_one_update_status (db : List RfpDoc) (s v : String) :
    find_one (update_status db s v) s
      = (find_one db s).map (fun r => { r with status := v }) := by
  induction db with
  | nil => rfl
  | cons r rest ih =>
    by_cases h : r.id = s
    · simp [update_status, find_one, List.find?, h]
    · have hb : (r.id == s) = false := by simp [h]
      simp [update_status, find_one, List.find?, hb] at ih ⊢
      exact ih

/-- C1: For every pair (a, b) of the 13 workflow states,
`can_transition(a, b)` returns true iff b is the single configured
successor of a in the fixed chain INITIATED through SUBMITTED; every
non-terminal state has exactly one successor in the transition table,
and the terminal state SUBMITTED has none. -/
theorem can_transition_matches_spec_chain :
    (∀ a b : RFPStatus, can_transition a b = true ↔ chainNext a = some b)
    ∧ (∀ a : RFPStatus, a ≠ RFPStatus.SUBMITTED →
        (get_next_valid_states a).length = 1)
    ∧ get_next_valid_states RFPStatus.SUBMITTED = [] :=
  ⟨by decide, by decide, rfl⟩

/-- Witness for C1 at the concrete pair INITIATED → LINKED_TO_RFP. -/
theorem can_transition_matches_spec_chain_witness :
    can_transition RFPStatus.INITIATED RFPStatus.LINKED_TO_RFP = true
    ∧ (get_next_valid_states RFPStatus.INITIATED).length = 1 :=
  ⟨(can_transition_matches_spec_chain.1 RFPStatus.INITIATED
      RFPStatus.LINKED_TO_RFP).mpr (by decide),
   can_transition_matches_spec_chain.2.1 RFPStatus.INITIATED (by decide)⟩

/-- C6: `apply_workflow_transition` updates the record's stage only when
`can_transition(current stage, proposed next state)` holds: either the
collection is returned unchanged (illegal transition, unparsable
proposed or stored status, missing id, or record not found — no error is
surfaced in any of these cases, the function is total), or the proposed
state was a legal successor of the record's parsed current status and
exactly that record's status is set to it; and whenever the record is
found with a parsable status and the proposed transition is legal, the
record's stored stage afterwards is the proposed one. -/
theorem apply_workflow_transition_gated (db : List RfpDoc)
    (rfp_id next_status : Option String) :
    (apply_workflow_transition db rfp_id next_status = db
      ∨ ∃ s ns r cur nxt, rfp_id = some s ∧ next_status = some ns
          ∧ RFPStatus.ofString? ns = some nxt
          ∧ find_one db s = some r
          ∧ RFPStatus.ofString? r.status = some cur
          ∧ can_transition cur nxt = true
          ∧ apply_workflow_transition db rfp_id next_status
              = update_status db s nxt.value)
  ∧ (∀ s r cur nxt, rfp_id = some s → s ≠ "" →
        next_status = some nxt.value →
        find_one db s = some r →
        RFPStatus.ofString? r.status = some cur →
        can_transition cur nxt = true →
        (find_one (apply_workflow_transition db rfp_id next_status) s).map
            (fun d => d.status) = some nxt.value) := by
  constructor
  · rw [apply_workflow_transition]
    split
    · rename_i h
      split
      · exact Or.inl rfl
      · rename_i nxt hof
        split
        · exact Or.inl rfl
        · rename_i r hfind
          split
          · exact Or.inl rfl
          · rename_i cur hcur
            split
            · rename_i hcan
              obtain ⟨s, hs⟩ : ∃ s, rfp_id = some s := by
                cases rfp_id with
                | none => simp [truthyStr] at h
                | some s => exact ⟨s, rfl⟩
              obtain ⟨ns, hns⟩ : ∃ ns, next_status = some ns := by
                cases next_status with
                | none => simp [truthyStr] at h
                | some ns => exact ⟨ns, rfl⟩
              subst hs; subst hns
              simp only [Option.getD_some] at hof hfind ⊢
              exact Or.inr ⟨s, ns, r, cur, nxt, rfl, rfl, hof, hfind, hcur,
                hcan, rfl⟩
            · exact Or.inl rfl
    · exact Or.inl rfl
  · intro s r cur nxt hs hne hns hfind hcur hcan
    subst hs; subst hns
    have h1 : truthyStr (some s) = true := by simp [truthyStr, hne]
    have h2 : truthyStr (some nxt.value) = true := by
      simp [truthyStr, RFPStatus.value_ne_empty nxt]
    have happ : apply_workflow_transition db (some s) (some nxt.value)
        = update_status db s nxt.value := by
      rw [apply_workflow_transition, if_pos (by simp [h1, h2])]
      simp [RFPStatus.ofString_value, hfind, hcur, hcan]
    rw [happ, find_one_update_status, hfind]
    rfl

/-- Witness for C6: a legal INITIATED → LINKED_TO_RFP transition applied
to a one-record collection lands the record in LINKED_TO_RFP. -/
theorem apply_workflow_transition_gated_witness :
    (find_one (apply_workflow_transition [⟨"r1", "INITIATED", []⟩]
        (some "r1") (some "LINKED_TO_RFP")) "r1").map (fun d => d.status)
      = some "LINKED_TO_RFP" :=
  (apply_workflow_transition_gated [⟨"r1", "INITIATED", []⟩]
      (some "r1") (some "LINKED_TO_RFP")).2 "r1" ⟨"r1", "INITIATED", []⟩
    RFPStatus.INITIATED RFPStatus.LINKED_TO_RFP rfl (by decide) rfl rfl rfl
    rfl

/-- C7: Transition application is idempotent under retry: for a record
stored with parsable stage `a` and legal successor `b`, applying the
transition to `b` twice leaves the collection exactly as applying it
once, and the record ends in stage `b` (the second application is a
no-op because no stage is its own successor). -/
theorem apply_workflow_transition_idempotent (db : List RfpDoc) (i : String)
    (r : RfpDoc) (a b : RFPStatus) (hi : i ≠ "")
    (hfind : find_one db i = some r)
    (hcur : RFPStatus.ofString? r.status = some a)
    (hlegal : can_transition a b = true) :
    apply_workflow_transition
        (apply_workflow_transition db (some i) (some b.value))
        (some i) (some b.value)
      = apply_workflow_transition db (some i) (some b.value)
  ∧ (find_one (apply_workflow_transition db (some i) (some b.value)) i).map
        (fun d => d.status) = some b.value := by
  have h1 : truthyStr (some i) = true := by simp [truthyStr, hi]
  have h2 : truthyStr (some b.value) = true := by
    simp [truthyStr, RFPStatus.value_ne_empty b]
  have happ : apply_workflow_transition db (some i) (some b.value)
      = update_status db i b.value := by
    rw [apply_workflow_transition, if_pos (by simp [h1, h2])]
    simp [RFPStatus.ofString_value, hfind, hcur, hlegal]
  have hfind2 : find_one (update_status db i b.value) i
      = some { r with status := b.value } := by
    rw [find_one_update_status, hfind]; rfl
  constructor
  · rw [happ, apply_workflow_transition, if_pos (by simp [h1, h2])]
    simp [RFPStatus.ofString_value, hfind2, can_transition_self]
  · rw [happ, hfind2]; rfl

/-- Witness for C7 at a concrete one-record collection. -/
theorem apply_workflow_transition_idempotent_witness :
    apply_workflow_transition
        (apply_workflow_transition [⟨"r1", "INITIATED", []⟩]
          (some "r1") (some RFPStatus.LINKED_TO_RFP.value))
        (some "r1") (some RFPStatus.LINKED_TO_RFP.value)
      = apply_workflow_transition [⟨"r1", "INITIATED", []⟩]
          (some "r1") (some RFPStatus.LINKED_TO_RFP.value) :=
  (apply_workflow_transition_idempotent [⟨"r1", "INITIATED", []⟩] "r1"
      ⟨"r1", "INITIATED", []⟩ RFPStatus.INITIATED RFPStatus.LINKED_TO_RFP
      (by decide) rfl rfl rfl).1

/-- C9: Every orchestrator merge step appends the agent's changes and
events to the accumulated `agent_changes`/`agent_events` lists (entries
from earlier agents are never overwritten or removed), overwrites
`next_state` only when the agent supplied one (otherwise the previous
value is kept), records the agent's message and success flag as
`last_message`/`last_success`, and leaves every other state key
untouched. -/
theorem merge_agent_result_spec {Δ ρ : Type} (s : PipeState Δ ρ)
    (r : AgentResult Δ) :
    (_merge_agent_result s r).agent_changes
        = some (s.agent_changes.getD [] ++ [r.changes])
  ∧ (_merge_agent_result s r).agent_events
        = some (s.agent_events.getD [] ++ [r.events])
  ∧ (r.next_state = none →
        (_merge_agent_result s r).next_state = s.next_state)
  ∧ (∀ v, r.next_state = some v → v ≠ "" →
        (_merge_agent_result s r).next_state = some v)
  ∧ (_merge_agent_result s r).last_message = r.message
  ∧ (_merge_agent_result s r).last_success = some r.success
  ∧ (_merge_agent_result s r).rest = s.rest := by
  refine ⟨rfl, rfl, ?_, ?_, rfl, rfl, rfl⟩
  · intro h
    simp [_merge_agent_result, truthyStr, h]
  · intro v hv hne
    simp [_merge_agent_result, truthyStr, hv, hne]

/-- Witness for C9 at a concrete state and agent result. -/
theorem merge_agent_result_spec_witness :
    (_merge_agent_result (Δ := Nat) (ρ := Unit)
        { agent_changes := some [1], rest := () }
        { changes := 2, events := 3, next_state := some "X" }).next_state
      = some "X" :=
  (merge_agent_result_spec { agent_changes := some [1], rest := () }
      { changes := 2, events := 3, next_state := some "X" }).2.2.2.1
    "X" rfl (by decide)

/-- C8: With no record id, a payload missing (or with a falsy) `title`
or `client_name` makes `SalesAgent.run` return `success=False` and leave
the record store unchanged; with both present it inserts exactly one new
record, built from the payload with status INITIATED, reports success,
and suggests `next_state` LINKED_TO_RFP. -/
theorem sales_agent_new_record_spec (db : List RFPModel)
    (p : SalesPayload) :
    ((truthyStr p.title = false ∨ truthyStr p.client_name = false) →
        (SalesAgent_run_new db p).1.success = false
      ∧ (SalesAgent_run_new db p).2 = db)
  ∧ (truthyStr p.title = true → truthyStr p.client_name = true →
        (SalesAgent_run_new db p).1.success = true
      ∧ (∃ m : RFPModel, (SalesAgent_run_new db p).2 = db ++ [m]
          ∧ m.status = "INITIATED"
          ∧ m.title = p.title.getD ""
          ∧ m.client.name = p.client_name.getD "")
      ∧ (SalesAgent_run_new db p).1.next_state = some "LINKED_TO_RFP") := by
  constructor
  · rintro (h | h)
    · simp [SalesAgent_run_new, _build_new_rfp_model, h]
    · by_cases ht : truthyStr p.title = true
      · simp [SalesAgent_run_new, _build_new_rfp_model, ht, h]
      · simp only [Bool.not_eq_true] at ht
        simp [SalesAgent_run_new, _build_new_rfp_model, ht]
  · intro ht hc
    have hb : _build_new_rfp_model p = .ok
        { title := p.title.getD ""
          client := { name := p.client_name.getD ""
                      contact := p.client_contact }
          status := "INITIATED"
          received_date := p.received_date
          due_date := p.due_date
          industry := p.industry
          rfp_size := p.rfp_size
          tags := p.tags.getD [] } := by
      simp [_build_new_rfp_model, ht, hc]
    refine ⟨by simp [SalesAgent_run_new, hb], ?_, ?_⟩
    · refine ⟨{ title := p.title.getD ""
                client := { name := p.client_name.getD ""
                            contact := p.client_contact }
                status := "INITIATED"
                received_date := p.received_date
                due_date := p.due_date
                industry := p.industry
                rfp_size := p.rfp_size
                tags := p.tags.getD [] }, ?_, rfl, rfl, rfl⟩
      simp [SalesAgent_run_new, hb]
    · simp only [SalesAgent_run_new, hb]
      rfl

/-- Witness for C8: the spec's end-to-end intake payload
`{title: "Cloud RFP", client_name: "Acme"}` on an empty store. -/
theorem sales_agent_new_record_spec_witness :
    (SalesAgent_run_new []
        { title := some "Cloud RFP", client_name := some "Acme" }).1.success
      = true
  ∧ (SalesAgent_run_new []
        { title := some "Cloud RFP", client_name := some "Acme" }).1.next_state
      = some "LINKED_TO_RFP" :=
  have h := sales_agent_new_record_spec []
    { title := some "Cloud RFP", client_name := some "Acme" }
  ⟨(h.2 (by decide) (by decide)).1, (h.2 (by decide) (by decide)).2.2⟩

/-! Part: C2: the BDM breakdown batch -/

/-- The concrete breakdown payload of the claim: 3 valid sections and 1
section missing its title. -/
def bdmCexSections : List Section :=
  [{ title := some "Executive Overview", task_type := some "CONTENT_DRAFT" },
   { title := some "Security Questionnaire", task_type := some "SME_QA" },
   { title := some "Pricing" },
   { description := some "section with no title" }]

/-- A store holding the one existing record the claim addresses. -/
def bdmCexDB : BdmDB :=
  { rfps := [{ id := "aaaaaaaaaaaaaaaaaaaaaaaa" }] }

/-- Counterexample to C2 as stated: on an existing record and the
3-valid-plus-1-missing-title payload, `BDMReviewAgent.run` creates 4
work items, not 3 — the missing-title section is not skipped; it is
created with the default title "Untitled section". -/
theorem bdm_missing_title_not_skipped_cex :
    (BDMReviewAgent_run bdmCexDB (some "aaaaaaaaaaaaaaaaaaaaaaaa")
        bdmCexSections).1.created_task_ids.length = 4
  ∧ ¬ ((BDMReviewAgent_run bdmCexDB (some "aaaaaaaaaaaaaaaaaaaaaaaa")
        bdmCexSections).1.created_task_ids.length = 3)
  ∧ ((BDMReviewAgent_run bdmCexDB (some "aaaaaaaaaaaaaaaaaaaaaaaa")
        bdmCexSections).2.tasks.map (fun t => t.title))
      = ["Executive Overview", "Security Questionnaire", "Pricing",
         "Untitled section"] := by
  refine ⟨?_, by decide, ?_⟩ <;> rfl

/-- The number of tasks the breakdown loop creates equals the number of
sections. -/
theorem createTasks_length (rid : String) (n : Nat) (ss : List Section) :
    (createTasks rid n ss).length = ss.length := by
  induction ss generalizing n with
  | nil => rfl
  | cons s rest ih => simp [createTasks, ih]

/-- The title of the i-th created task is the i-th section's title, with
the falsy-title fallback "Untitled section". -/
theorem createTasks_title (rid : String) (n : Nat) (ss : List Section)
    (i : Nat) :
    ((createTasks rid n ss)[i]?).map (fun t => t.title)
      = (ss[i]?).map (fun s => falsyOr s.title "Untitled section") := by
  induction ss generalizing n i with
  | nil => rfl
  | cons s rest ih =>
    cases i with
    | zero => simp [createTasks, mkBdmTask]
    | succ j => simpa [createTasks] using ih (n + 1) j

/-- C2 (amended): on an existing record id and a non-empty sections
list, `BDMReviewAgent.run` creates exactly one work item per section —
so 3 valid sections plus 1 missing-title section yield 4 work items, not
3; the missing-title section is not skipped but receives the default
title "Untitled section", and the remaining sections are unaffected. -/
theorem bdm_creates_task_per_section (db : BdmDB) (rid : String)
    (sections : List Section) (rfp : BdmRfpDoc)
    (hvalid : isValidObjectId rid = true)
    (hfind : db.rfps.find? (fun r => r.id == rid) = some rfp)
    (hne : sections ≠ []) :
    (BDMReviewAgent_run db (some rid) sections).1.success = true
  ∧ (BDMReviewAgent_run db (some rid) sections).1.created_task_ids.length
      = sections.length
  ∧ (BDMReviewAgent_run db (some rid) sections).2.tasks
      = db.tasks ++ createTasks rid db.nextTaskId sections
  ∧ ∀ i : Nat, (((BDMReviewAgent_run db (some rid) sections).2.tasks.drop
        db.tasks.length)[i]?).map (fun t => t.title)
      = (sections[i]?).map (fun s => falsyOr s.title "Untitled section") := by
  have hrid : truthyStr (some rid) = true := by
    rcases eq_or_ne rid "" with h | h
    · subst h; simp [isValidObjectId] at hvalid
    · simp [truthyStr, h]
  have hempty : sections.isEmpty = false := by
    cases sections with
    | nil => exact absurd rfl hne
    | cons s rest => rfl
  refine ⟨?_, ?_, ?_, ?_⟩ <;>
    simp [BDMReviewAgent_run, hrid, hvalid, hfind, hempty,
      createTasks_length, createTasks_title]

/-- Witness for C2 (amended) at the concrete 3-valid-plus-1 payload. -/
theorem bdm_creates_task_per_section_witness :
    (BDMReviewAgent_run bdmCexDB (some "aaaaaaaaaaaaaaaaaaaaaaaa")
        bdmCexSections).1.created_task_ids.length
      = bdmCexSections.length :=
  (bdm_creates_task_per_section bdmCexDB "aaaaaaaaaaaaaaaaaaaaaaaa"
      bdmCexSections { id := "aaaaaaaaaaaaaaaaaaaaaaaa" } (by decide) rfl
      (by simp [bdmCexSections])).2.1

/-! Part: C3: the SME routing batch -/

/-- Routing updates rewrite fields of a task document but never change
the list of task ids in the collection. -/
theorem sme_update_task_ids (ts : List SmeTask) (i tm kb : String)
    (sc : Option ℚ) :
    (sme_update_task ts i tm kb sc).map (fun t => t.id)
      = ts.map (fun t => t.id) := by
  induction ts with
  | nil => rfl
  | cons t rest ih =>
    by_cases h : (t.id == i) = true
    · simp [sme_update_task, h]
    · simp only [Bool.not_eq_true] at h
      simp [sme_update_task, h, ih]

/-- Two task collections with the same id lists answer every
id-membership test alike. -/
theorem any_id_congr {ts ts' : List SmeTask}
    (h : ts'.map (fun t => t.id) = ts.map (fun t => t.id)) (s : String) :
    ts'.any (fun t => t.id == s) = ts.any (fun t => t.id == s) := by
  induction ts generalizing ts' with
  | nil =>
    cases ts' with
    | nil => rfl
    | cons a l => simp at h
  | cons t rest ih =>
    cases ts' with
    | nil => simp at h
    | cons a l =>
      simp only [List.map_cons, List.cons.injEq] at h
      simp [List.any_cons, h.1, ih h.2]

/-- The outcome `smeProcessItem` computes for a question depends on the
task collection only through id membership. -/
theorem smeProcessItem_congr (env : SmeEnv) {ts ts' : List SmeTask}
    (h : ts'.map (fun t => t.id) = ts.map (fun t => t.id)) (q : Question) :
    smeProcessItem env ts' q = smeProcessItem env ts q := by
  unfold smeProcessItem
  simp only [any_id_congr h]

/-- Processing one question never changes the task id list. -/
theorem smeApplyItem_ids (env : SmeEnv) (ts : List SmeTask) (q : Question) :
    (smeApplyItem env ts q).map (fun t => t.id) = ts.map (fun t => t.id) := by
  unfold smeApplyItem
  split
  · exact sme_update_task_ids ..
  · rfl

/-- The routing loop's reported details and updated-task ids are exactly
the per-question outcomes computed independently against the original
task collection: a failing question affects neither its siblings'
processing nor their reporting. -/
theorem smeLoop_spec (env : SmeEnv) (qs : List Question) :
    ∀ ts : List SmeTask,
      (smeLoop env ts qs).2.1
          = qs.filterMap (fun q => (smeProcessItem env ts q).map Prod.fst)
      ∧ (smeLoop env ts qs).1
          = qs.filterMap (fun q => (smeProcessItem env ts q).bind
              (fun x => x.2.map (fun u => u.tid))) := by
  induction qs with
  | nil => intro ts; exact ⟨rfl, rfl⟩
  | cons q qs ih =>
    intro ts
    have hcongr : ∀ q' : Question,
        smeProcessItem env (smeApplyItem env ts q) q'
          = smeProcessItem env ts q' :=
      fun q' => smeProcessItem_congr env (smeApplyItem_ids env ts q) q'
    obtain ⟨h1, h2⟩ := ih (smeApplyItem env ts q)
    rw [smeLoop]
    cases hstep : smeProcessItem env ts q with
    | none =>
      simp [hstep, h1, h2, hcongr, List.filterMap_cons]
    | some p =>
      obtain ⟨d, u⟩ := p
      cases u with
      | none => simp [hstep, h1, h2, hcongr, List.filterMap_cons]
      | some u => simp [hstep, h1, h2, hcongr, List.filterMap_cons]

/-- The environment of the C3 counterexample: embedding succeeds, the
corpus search finds nothing (its values are never reached). -/
def smeCexEnv : SmeEnv :=
  { embed := fun _ => .ok 0
    search := fun _ => [] }

/-- The C3 counterexample batch: one question with no task id. -/
def smeCexQuestions : List Question :=
  [{ task_id := none, text := some "What is your security posture?" }]

/-- Counterexample to C3 as stated: on a non-empty batch whose single
item is skipped (missing task id), `SMERoutingAgent.run` reports
batch-level `success=True` although no item was validly processed, and
the skipped item gets no per-item status in `routing_details` — so
neither "every skipped item is reported individually" nor "success iff
at least one item was validly processed" holds of the code. -/
theorem sme_unconditional_success_cex :
    (SMERoutingAgent_run smeCexEnv [] smeCexQuestions).1.success = true
  ∧ (SMERoutingAgent_run smeCexEnv [] smeCexQuestions).1.updated_task_ids
      = []
  ∧ (SMERoutingAgent_run smeCexEnv [] smeCexQuestions).1.routing_details
      = []
  ∧ ¬ ((SMERoutingAgent_run smeCexEnv [] smeCexQuestions).1.success = true
        ↔ (SMERoutingAgent_run smeCexEnv [] smeCexQuestions).1.updated_task_ids
            ≠ []) := by
  refine ⟨rfl, rfl, rfl, fun h => ?_⟩
  exact (h.mp rfl) rfl

/-- C3 (amended): for every `SMERoutingAgent.run` invocation with a
non-empty questions list, a per-item failure does not abort processing
of the remaining items — each item's reported status and task update are
what they would be against the original task collection, independent of
its siblings; items failing after validation are reported individually
with a per-item status ("embedding_failed", "no_match",
"no_team_in_match", "invalid_task_id", "task_not_found"), but items with
a missing/falsy task id or blank text are skipped silently with no
per-item report, and the batch-level success flag is true for every
non-empty questions list regardless of per-item outcomes. -/
theorem sme_router_batch_spec (env : SmeEnv) (tasks : List SmeTask)
    (qs : List Question) (hne : qs ≠ []) :
    (SMERoutingAgent_run env tasks qs).1.success = true
  ∧ (SMERoutingAgent_run env tasks qs).1.routing_details
      = qs.filterMap (fun q => (smeProcessItem env tasks q).map Prod.fst)
  ∧ (SMERoutingAgent_run env tasks qs).1.updated_task_ids
      = qs.filterMap (fun q => (smeProcessItem env tasks q).bind
          (fun x => x.2.map (fun u => u.tid))) := by
  have hempty : qs.isEmpty = false := by
    cases qs with
    | nil => exact absurd rfl hne
    | cons q rest => rfl
  obtain ⟨h1, h2⟩ := smeLoop_spec env qs tasks
  exact ⟨by simp [SMERoutingAgent_run, hempty],
    by simpa [SMERoutingAgent_run, hempty] using h1,
    by simpa [SMERoutingAgent_run, hempty] using h2⟩

/-- Witness for C3 (amended) at the concrete one-question batch. -/
theorem sme_router_batch_spec_witness :
    (SMERoutingAgent_run smeCexEnv [] smeCexQuestions).1.success = true :=
  (sme_router_batch_spec smeCexEnv [] smeCexQuestions
      (by simp [smeCexQuestions])).1

/-! Part: C4 and C5: the quality gate and its aggregate -/

/-- The quality loop's accumulated score is the sum of the per-item
scores over the items that pass the id checks, independent of the task
collection it threads. -/
theorem qualityLoop_overall (review : QTask → ℚ) (tasks : List QTask) :
    ∀ db : List QTaskDoc, (qualityLoop review db tasks).1
      = ((tasks.filter (fun t => truthyStr t.task_id
            && isValidObjectId (t.task_id.getD ""))).map review).sum := by
  induction tasks with
  | nil => intro db; rfl
  | cons t rest ih =>
    intro db
    rw [qualityLoop]
    by_cases h1 : truthyStr t.task_id = true
    · by_cases h2 : isValidObjectId (t.task_id.getD "") = true
      · by_cases hm : db.any (fun x => x.id == t.task_id.getD "") = true
        · simp [h1, h2, hm, ih, List.filter_cons]
        · simp only [Bool.not_eq_true] at hm
          simp [h1, h2, hm, ih, List.filter_cons]
      · simp only [Bool.not_eq_true] at h2
        simp [h1, h2, ih, List.filter_cons]
    · simp only [Bool.not_eq_true] at h1
      simp [h1, ih, List.filter_cons]

/-- C4: For a non-empty tasks list, `QualityAgent.run` suggests
`next_state` FINAL_RFP if and only if the aggregate average quality
score it computes (the reported `avg_quality_score`) is at least the
fixed threshold 0.85. -/
theorem quality_gate_iff_threshold (review : QTask → ℚ)
    (db : List QTaskDoc) (tasks : List QTask) (hne : tasks ≠ []) :
    (QualityAgent_run review db tasks).1.next_state
        = some RFPStatus.FINAL_RFP.value
      ↔ (QualityAgent_run review db tasks).1.avg_quality_score ≥ 85 / 100 := by
  have hempty : tasks.isEmpty = false := by
    cases tasks with
    | nil => exact absurd rfl hne
    | cons t rest => rfl
  rw [QualityAgent_run]
  simp only [hempty, Bool.false_eq_true, if_false]
  by_cases h : (qualityLoop review db tasks).1 / (tasks.length : ℚ) ≥ 85 / 100
  · simpa [h] using by rfl
  · simp [h]

/-- Witness for C4: an aggregate score of exactly 0.84 suggests no
transition. -/
theorem quality_gate_iff_threshold_witness :
    ¬ ((QualityAgent_run (fun _ => (84 : ℚ) / 100) []
        [{ task_id := some "cccccccccccccccccccccccc" }]).1.next_state
          = some RFPStatus.FINAL_RFP.value) := by
  have hb1 : truthyStr (some "cccccccccccccccccccccccc") = true := by decide
  have hb2 : isValidObjectId "cccccccccccccccccccccccc" = true := by decide
  have h3 : (QualityAgent_run (fun _ => (84 : ℚ) / 100) []
      [{ task_id := some "cccccccccccccccccccccccc" }]).1.avg_quality_score
        = 84 / 100 := by
    norm_num [QualityAgent_run, qualityLoop, hb1, hb2, quality_update_task]
  intro h
  have h2 := (quality_gate_iff_threshold (fun _ => (84 : ℚ) / 100) []
      [{ task_id := some "cccccccccccccccccccccccc" }] (by simp)).mp h
  rw [h3] at h2
  norm_num at h2

/-- The aggregate C5 describes, written out from the claim's words: the
arithmetic mean of the per-item quality scores over the items actually
processed — items skipped for a missing or malformed task id are
excluded from the average. -/
def specProcessedMean (review : QTask → ℚ) (tasks : List QTask) : ℚ :=
  let processed := tasks.filter (fun t => truthyStr t.task_id
      && isValidObjectId (t.task_id.getD ""))
  (processed.map review).sum / processed.length

/-- Counterexample to C5 as stated: with one processed item scoring 0.8
and one item skipped for a missing task id, the code's aggregate is
0.8 / 2 = 0.4 — the sum over processed items divided by the **total**
payload length — while the mean over the processed items is 0.8. -/
theorem quality_avg_divides_by_total_cex :
    (QualityAgent_run (fun _ => (4 : ℚ) / 5) []
        [{ task_id := some "cccccccccccccccccccccccc" }, { task_id := none }]
      ).1.avg_quality_score = 2 / 5
  ∧ specProcessedMean (fun _ => (4 : ℚ) / 5)
        [{ task_id := some "cccccccccccccccccccccccc" }, { task_id := none }]
      = 4 / 5
  ∧ ¬ ((QualityAgent_run (fun _ => (4 : ℚ) / 5) []
        [{ task_id := some "cccccccccccccccccccccccc" }, { task_id := none }]
      ).1.avg_quality_score
        = specProcessedMean (fun _ => (4 : ℚ) / 5)
            [{ task_id := some "cccccccccccccccccccccccc" },
             { task_id := none }]) := by
  have hb1 : truthyStr (some "cccccccccccccccccccccccc") = true := by decide
  have hb2 : isValidObjectId "cccccccccccccccccccccccc" = true := by decide
  have hb3 : (("cccccccccccccccccccccccc" : String) == "") = false := by
    decide
  have hb4 : ("cccccccccccccccccccccccc" : String) ≠ "" := by decide
  have e1 : (QualityAgent_run (fun _ => (4 : ℚ) / 5) []
      [{ task_id := some "cccccccccccccccccccccccc" }, { task_id := none }]
    ).1.avg_quality_score = 2 / 5 := by
    norm_num [QualityAgent_run, qualityLoop, hb1, hb2, hb3, hb4,
      quality_update_task, truthyStr]
  have e2 : specProcessedMean (fun _ => (4 : ℚ) / 5)
      [{ task_id := some "cccccccccccccccccccccccc" }, { task_id := none }]
      = 4 / 5 := by
    norm_num [specProcessedMean, List.filter, hb1, hb2, hb3, hb4, truthyStr]
  exact ⟨e1, e2, by rw [e1, e2]; norm_num⟩

/-- C5 (amended): for a non-empty tasks list, the aggregate quality
score equals the sum of the per-item scores over the items actually
processed divided by the **total** number of payload items (items
skipped for a missing or malformed task id are excluded from the sum
but still counted in the denominator), and this aggregate is both the
reported `avg_quality_score` and the value the 0.85 gate tests. -/
theorem quality_avg_over_total_spec (review : QTask → ℚ)
    (db : List QTaskDoc) (tasks : List QTask) (hne : tasks ≠ []) :
    (QualityAgent_run review db tasks).1.avg_quality_score
      = ((tasks.filter (fun t => truthyStr t.task_id
            && isValidObjectId (t.task_id.getD ""))).map review).sum
          / tasks.length
  ∧ ((QualityAgent_run review db tasks).1.next_state
        = some RFPStatus.FINAL_RFP.value
      ↔ ((tasks.filter (fun t => truthyStr t.task_id
            && isValidObjectId (t.task_id.getD ""))).map review).sum
          / tasks.length ≥ 85 / 100) := by
  have hempty : tasks.isEmpty = false := by
    cases tasks with
    | nil => exact absurd rfl hne
    | cons t rest => rfl
  have hsum := qualityLoop_overall review tasks db
  constructor
  · rw [QualityAgent_run]
    simp only [hempty, Bool.false_eq_true, if_false]
    rw [hsum]
  · rw [QualityAgent_run]
    simp only [hempty, Bool.false_eq_true, if_false]
    rw [hsum]
    by_cases h : ((tasks.filter (fun t => truthyStr t.task_id
        && isValidObjectId (t.task_id.getD ""))).map review).sum
          / (tasks.length : ℚ) ≥ 85 / 100
    · simpa [h, hsum] using by rfl
    · simp [h, hsum]

/-- Witness for C5 (amended) at the concrete two-item payload. -/
theorem quality_avg_over_total_spec_witness :
    (QualityAgent_run (fun _ => (4 : ℚ) / 5) []
        [{ task_id := some "cccccccccccccccccccccccc" }, { task_id := none }]
      ).1.avg_quality_score
      = (([{ task_id := some "cccccccccccccccccccccccc" },
           { task_id := none }] : List QTask).filter
            (fun t => truthyStr t.task_id
              && isValidObjectId (t.task_id.getD "")) |>.map
            (fun _ => (4 : ℚ) / 5)).sum
          / (([{ task_id := some "cccccccccccccccccccccccc" },
              { task_id := none }] : List QTask).length : ℚ) :=
  (quality_avg_over_total_spec (fun _ => (4 : ℚ) / 5) []
      [{ task_id := some "cccccccccccccccccccccccc" }, { task_id := none }]
      (by simp)).1

/-! Part: C10: the similarity ranking contract -/

/-- Insertion adds exactly the new entry to the list's members. -/
theorem rankInsert_mem {α : Type} (sim : α → ℚ) (x z : Nat × α)
    (l : List (Nat × α)) : z ∈ rankInsert sim x l ↔ z ∈ x :: l := by
  induction l with
  | nil => simp [rankInsert]
  | cons y ys ih =>
    rw [rankInsert]
    by_cases h : sim x.2 < sim y.2
    · simp only [if_pos h, List.mem_cons, ih]
      tauto
    · simp [if_neg h]

/-- Sorting preserves the list's members. -/
theorem rankSort_mem {α : Type} (sim : α → ℚ) (z : Nat × α)
    (l : List (Nat × α)) : z ∈ rankSort sim l ↔ z ∈ l := by
  induction l with
  | nil => simp [rankSort]
  | cons x xs ih =>
    rw [rankSort, rankInsert_mem]
    simp [ih]

/-- Inserting an entry whose corpus index precedes every index in a
ranked list keeps the list ranked: better scores stay in front, and on a
score tie the earlier-indexed entry stays in front. -/
theorem rankInsert_pairwise {α : Type} (sim : α → ℚ) (x : Nat × α)
    (l : List (Nat × α)) (hl : l.Pairwise (rankRel sim))
    (hx : ∀ y ∈ l, x.1 < y.1) :
    (rankInsert sim x l).Pairwise (rankRel sim) := by
  induction l with
  | nil => simp [rankInsert, List.pairwise_singleton]
  | cons y ys ih =>
    rw [List.pairwise_cons] at hl
    obtain ⟨hy, hys⟩ := hl
    rw [rankInsert]
    by_cases h : sim x.2 < sim y.2
    · rw [if_pos h, List.pairwise_cons]
      refine ⟨fun z hz => ?_, ih hys (fun z hz => hx z (List.mem_cons_of_mem y hz))⟩
      rcases List.mem_cons.mp ((rankInsert_mem sim x z ys).mp hz) with hzx | hzy
      · subst hzx
        exact Or.inl h
      · exact hy z hzy
    · rw [if_neg h, List.pairwise_cons]
      push_neg at h
      constructor
      · intro z hz
        rcases List.mem_cons.mp hz with hzy | hzys
        · subst hzy
          rcases lt_or_eq_of_le h with hlt | heq
          · exact Or.inl hlt
          · exact Or.inr ⟨heq.symm, hx z (List.mem_cons_self z ys)⟩
        · rcases hy z hzys with hlt | ⟨heq, _⟩
          · exact Or.inl (lt_of_lt_of_le hlt h)
          · rcases lt_or_eq_of_le h with hlt2 | heq2
            · exact Or.inl (heq ▸ hlt2)
            · exact Or.inr ⟨heq2.symm.trans heq,
                hx z (List.mem_cons_of_mem y hzys)⟩
      · rw [List.pairwise_cons]
        exact ⟨hy, hys⟩

/-- Sorting a list whose corpus indices are strictly increasing yields a
ranked list. -/
theorem rankSort_pairwise {α : Type} (sim : α → ℚ) (l : List (Nat × α))
    (hl : l.Pairwise (fun a b => a.1 < b.1)) :
    (rankSort sim l).Pairwise (rankRel sim) := by
  induction l with
  | nil => exact List.Pairwise.nil
  | cons x xs ih =>
    rw [List.pairwise_cons] at hl
    rw [rankSort]
    exact rankInsert_pairwise sim x (rankSort sim xs) (ih hl.2)
      (fun y hy => hl.1 y ((rankSort_mem sim y xs).mp hy))

/-- Every entry of `enumFrom n l` carries an index at least `n`. -/
theorem le_fst_of_mem_enumFrom {α : Type} {y : Nat × α} :
    ∀ {n : Nat} {l : List α}, y ∈ List.enumFrom n l → n ≤ y.1 := by
  intro n l
  induction l generalizing n with
  | nil => intro h; simp at h
  | cons a as ih =>
    intro h
    rcases List.mem_cons.mp h with hy | hy
    · subst hy; exact le_refl _
    · exact Nat.le_of_succ_le (ih hy)

/-- The indices produced by `enumFrom` are strictly increasing. -/
theorem enumFrom_fst_pairwise {α : Type} (l : List α) :
    ∀ n : Nat, (List.enumFrom n l).Pairwise (fun a b => a.1 < b.1) := by
  induction l with
  | nil => intro n; exact List.Pairwise.nil
  | cons a as ih =>
    intro n
    rw [List.enumFrom, List.pairwise_cons]
    exact ⟨fun y hy => Nat.lt_of_succ_le (le_fst_of_mem_enumFrom hy), ih (n + 1)⟩

/-- C10: For every query (represented by its similarity function over
corpus entries) and corpus, `route` returns candidates ordered by
descending similarity score with ties broken by corpus insertion order
(a stable ranking), returns at most the requested limit of candidates,
and returns only (indexed) entries of the corpus. -/
theorem route_ranked_spec {α : Type} (sim : α → ℚ) (k : Nat)
    (corpus : List α) :
    (route sim k corpus).Pairwise (rankRel sim)
  ∧ (route sim k corpus).length ≤ k
  ∧ ∀ e ∈ route sim k corpus, e ∈ corpus.enum := by
  have hsorted : (rankSort sim corpus.enum).Pairwise (rankRel sim) :=
    rankSort_pairwise sim corpus.enum (enumFrom_fst_pairwise corpus 0)
  refine ⟨hsorted.sublist (List.take_sublist k _), ?_, fun e he => ?_⟩
  · exact (rankSort sim corpus.enum).length_take_le k
  · exact (rankSort_mem sim e corpus.enum).mp (List.take_subset k _ he)

/-- Witness for C10: on the two-entry corpus with scores 5 and 7, the
lower-scoring entry is returned (ranked after the higher one) and is an
entry of the corpus. -/
theorem route_ranked_spec_witness :
    ((0, (5 : ℚ)) : Nat × ℚ) ∈ List.enum [(5 : ℚ), (7 : ℚ)] :=
  (route_ranked_spec (fun q => q) 2 [(5 : ℚ), (7 : ℚ)]).2.2 (0, 5) (by
    norm_num [route, rankSort, rankInsert, List.enum, List.enumFrom])

end RfpStudio
